import Mathlib

/-!
Verification of the resQ disaster-reporting backend.

The repository has two variants of one Express server:
* variant A (`src/backend/server.js`): report submission calls an external
  prediction service and stores ten columns including an urgency tier;
* variant B (`src/unnamed/part_000`): report submission stores seven columns
  with a mutable `status`, plus an admin status-update endpoint.

Both variants share the in-memory user directory (signup/login) and the
flat-file store conventions: the store is a text file whose content is
`String.intercalate "\n" lines ++ "\n"`; every handler reads it with
`trim().split("\n")`.  We model the store state as that list of lines.
Rows are split on the comma character exactly as JavaScript
`String.prototype.split(",")` does (every separator splits, empty pieces
kept, the empty string yields one empty piece).
-/

namespace ResQ

/-- JavaScript `s.split(",")` on the character-list level: split at every
comma, keeping empty pieces; the empty list yields one empty piece. -/
def splitCommaChars : List Char → List (List Char)
  | [] => [[]]
  | c :: cs =>
    if c = ',' then [] :: splitCommaChars cs
    else
      match splitCommaChars cs with
      | [] => [[c]]
      | p :: ps => (c :: p) :: ps

/-- JavaScript `s.split(",")`. -/
def splitComma (s : String) : List String :=
  (splitCommaChars s.data).map List.asString

/-- JavaScript `array.join(",")`. -/
def joinComma : List String → String
  | [] => ""
  | [x] => x
  | x :: xs => x ++ "," ++ joinComma xs

/-- JavaScript array element assignment `a[i] = v`: in-bounds assignment
replaces, out-of-bounds assignment creates holes, which `join` renders as
empty strings. -/
def jsArraySet (l : List String) (i : Nat) (v : String) : List String :=
  if i < l.length then l.set i v
  else l ++ List.replicate (i - l.length) "" ++ [v]

/-- `getUrgencyLevel` from `src/backend/server.js` lines 56-75: maps the two
predicted category strings to an urgency tier, falling through to `"N/A"`
when no branch matches. -/
def getUrgencyLevel (humanitarian severity : String) : String :=
  if humanitarian = "affected_injured_or_dead_people" then
    if severity = "severe" then "5 (Critical)"
    else if severity = "mild" then "4 (High)"
    else if severity = "little_or_none" then "3 (Moderate)"
    else "N/A"
  else if humanitarian = "infrastructure_and_utility_damage" then
    if severity = "severe" then "4 (High)"
    else if severity = "mild" then "3 (Moderate)"
    else if severity = "little_or_none" then "2 (Low)"
    else "N/A"
  else if humanitarian = "rescue_volunteering_or_donation_effort" then
    if severity = "severe" then "3 (Moderate)"
    else if severity = "mild" then "2 (Low)"
    else if severity = "little_or_none" then "1 (Minimal)"
    else "N/A"
  else if humanitarian = "not_humanitarian" then
    if severity = "severe" then "2 (Low)"
    else if severity = "mild" ∨ severity = "little_or_none" then "1 (Minimal)"
    else "N/A"
  else "N/A"

/-- The four humanitarian categories of the urgency table. -/
def humanitarianCategories : List String :=
  ["affected_injured_or_dead_people", "infrastructure_and_utility_damage",
   "rescue_volunteering_or_donation_effort", "not_humanitarian"]

/-- The three severity categories of the urgency table. -/
def severityCategories : List String :=
  ["severe", "mild", "little_or_none"]

/-- Header line of the variant B store (`src/unnamed/part_000` line 38). -/
def headerB : String :=
  "id,image_filename,latitude,longitude,location,description,status"

/-- Header line of the variant A store (`src/backend/server.js` line 43). -/
def headerA : String :=
  "id,image_filename,latitude,longitude,location,description,severity,humanitarian,disaster_or_not,urgency_level"

/-- The client-supplied fields of a report submission, together with the
server-generated image filename (variant B). -/
structure ReportInput where
  filename : String
  latitude : String
  longitude : String
  locationText : String
  descriptionText : String
deriving DecidableEq

/-- The row appended by the variant B `POST /user/report/` handler
(`src/unnamed/part_000` line 66). -/
def mkRowB (id : Nat) (inp : ReportInput) : String :=
  joinComma [Nat.repr id, inp.filename, inp.latitude, inp.longitude,
    inp.locationText, inp.descriptionText, "not_resolved"]

/-- Variant B report submission: the next id is the line count of the store
(header included), and the new row is appended (`src/unnamed/part_000`
lines 60-67).  Returns the new store and the assigned id. -/
def appendReport (lines : List String) (inp : ReportInput) : List String × Nat :=
  (lines ++ [mkRowB lines.length inp], lines.length)

/-- The inputs determining a variant A report row: client-supplied fields,
the server-generated filename, and the three labels returned by the external
prediction service. -/
structure ReportInputA where
  filename : String
  latitude : String
  longitude : String
  locationText : String
  descriptionText : String
  severityPrediction : String
  humanitarianPrediction : String
  disasterPrediction : String
deriving DecidableEq

/-- The row appended by the variant A `POST /user/report/` handler
(`src/backend/server.js` line 133); the urgency tier is derived from the
humanitarian and severity predictions. -/
def mkRowA (id : Nat) (inp : ReportInputA) : String :=
  joinComma [Nat.repr id, inp.filename, inp.latitude, inp.longitude,
    inp.locationText, inp.descriptionText, inp.severityPrediction,
    inp.humanitarianPrediction, inp.disasterPrediction,
    getUrgencyLevel inp.humanitarianPrediction inp.severityPrediction]

/-- Variant A report submission (`src/backend/server.js` lines 89-134). -/
def appendReportA (lines : List String) (inp : ReportInputA) : List String × Nat :=
  (lines ++ [mkRowA lines.length inp], lines.length)

/-- Sequential variant B submissions, collecting the assigned ids. -/
def appendMany (lines : List String) : List ReportInput → List String × List Nat
  | [] => (lines, [])
  | inp :: rest =>
    let r1 := appendReport lines inp
    let r2 := appendMany r1.1 rest
    (r2.1, r1.2 :: r2.2)

/-- Sequential variant A submissions, collecting the assigned ids. -/
def appendManyA (lines : List String) : List ReportInputA → List String × List Nat
  | [] => (lines, [])
  | inp :: rest =>
    let r1 := appendReportA lines inp
    let r2 := appendManyA r1.1 rest
    (r2.1, r1.2 :: r2.2)

/-- A JavaScript value appearing in a parsed report record.  `numOf s`
stands for `Number(s)` applied to the string read from the store; `nan` is
`Number(undefined)`, produced when a row is shorter than the header;
`undefined` is a plain out-of-bounds array read. -/
inductive JSValue where
  | str (s : String)
  | numOf (s : String)
  | nan
  | undefined
deriving DecidableEq

/-- One field of a parsed report record: the fields named `latitude`,
`longitude` and `id` are coerced with `Number(...)`, all others are kept as
read (`src/unnamed/part_000` lines 96-107, identical in
`src/backend/server.js` lines 167-177). -/
def fieldValue (header : String) (v : Option String) : JSValue :=
  if header = "latitude" ∨ header = "longitude" ∨ header = "id" then
    match v with
    | some s => .numOf s
    | none => .nan
  else
    match v with
    | some s => .str s
    | none => .undefined

/-- Parse one data row against the header fields: zip each header name with
the row value at its index (an out-of-range read yields `undefined`). -/
def parseReportRow (headers : List String) (line : String) : List (String × JSValue) :=
  (headers.enum).map (fun p => (p.2, fieldValue p.2 ((splitComma line).get? p.1)))

/-- `GET /user/reports/`: split every line after the header on commas and
zip against the header fields (`src/unnamed/part_000` lines 87-110). -/
def readAll : List String → List (List (String × JSValue))
  | [] => []
  | headerLine :: rows => rows.map (parseReportRow (splitComma headerLine))

/-- Outcome of the admin status update. -/
inductive UpdateOutcome where
  | notFound
  | updated
deriving DecidableEq

/-- The per-line transformation of the status-update handler: a data line
whose first comma-separated field equals the requested id has its index-6
field overwritten and is re-joined; any other line is returned verbatim
(`src/unnamed/part_000` lines 130-139). -/
def updateLine (reportId status line : String) : String :=
  let row := splitComma line
  if row.headD "" = reportId then joinComma (jsArraySet row 6 status) else line

/-- `PUT /admin/report/:report_id/status` (variant B,
`src/unnamed/part_000` lines 120-164): scan the data lines for a first
field equal to the id; if none matches, answer 404 and leave the file
untouched; otherwise rewrite the whole file from the mapped line list.
Returns the store after the request and the outcome. -/
def updateStatusOp (lines : List String) (reportId status : String) :
    List String × UpdateOutcome :=
  let found :=
    match lines with
    | [] => false
    | _ :: rows => rows.any (fun l => (splitComma l).headD "" = reportId)
  if found then
    (match lines with
     | [] => []
     | headerLine :: rows => headerLine :: rows.map (updateLine reportId status),
     .updated)
  else (lines, .notFound)

/-- An in-memory user record (`src/unnamed/part_000` lines 177-184). -/
structure User where
  mobile_number : String
  name : String
  email : String
  password_hash : String
  mpin : String
  wallet_amount : Int
deriving DecidableEq

/-- The body of a signup request. -/
structure SignupReq where
  mobile_number : String
  name : String
  email : String
  password : String
  mpin : String
deriving DecidableEq

/-- `POST /signup` (`src/unnamed/part_000` lines 169-191, identical in
`src/backend/server.js`): reject with Conflict when the mobile number is
already present; otherwise hash the password, append the new record with a
zero wallet, and return the stored record.  The SHA-256 digest of the
`crypto` library is an external primitive, passed in as `hash`. -/
def signup (hash : String → String) (users : List User) (req : SignupReq) :
    List User × Except String User :=
  if users.any (fun u => u.mobile_number = req.mobile_number) then
    (users, .error "Mobile number already exists.")
  else
    let newUser : User :=
      { mobile_number := req.mobile_number
        name := req.name
        email := req.email
        password_hash := hash req.password
        mpin := req.mpin
        wallet_amount := 0 }
    (users ++ [newUser], .ok newUser)

/-- The public projection of a user returned by login. -/
structure Contact where
  mobile_number : String
  name : String
deriving DecidableEq

/-- Result of a login request: 404, 401, or the success payload. -/
inductive LoginResult where
  | notFound
  | unauthorized
  | success (user : Contact) (contacts : List Contact)
deriving DecidableEq

/-- `POST /login` (`src/unnamed/part_000` lines 196-222, identical in
`src/backend/server.js`): find the first user with the supplied mobile
number (404 when none), compare the stored mpin textually (401 on
mismatch), and on success return the caller's public profile plus the
(mobile_number, name) pairs of every user whose number differs. -/
def login (users : List User) (mobile mpin : String) : LoginResult :=
  match users.find? (fun u => u.mobile_number = mobile) with
  | none => .notFound
  | some user =>
    if user.mpin ≠ mpin then .unauthorized
    else
      .success ⟨user.mobile_number, user.name⟩
        ((users.filter (fun u => ¬ u.mobile_number = mobile)).map
          (fun u => ⟨u.mobile_number, u.name⟩))

/-- A field string free of the comma delimiter. -/
def commaFree (s : String) : Bool := s.data.all (fun c => !(c = ','))

/-- A field string free of the delimiter and of newlines, the hypothesis
under which flat-file rows stay aligned. -/
def cleanField (s : String) : Bool :=
  s.data.all (fun c => !(c = ',') && !(c = '\n'))

/-- One exposed operation of either server variant. -/
inductive Op where
  | signupReq (req : SignupReq)
  | loginReq (mobile mpin : String)
  | submitReportB (inp : ReportInput)
  | submitReportA (inp : ReportInputA)
  | readReports
  | adminSetStatus (reportId status : String)

/-- The whole observable server state: the in-memory user directory and the
flat-file store lines. -/
structure SysState where
  users : List User
  store : List String

/-- The state transition of one request: signup may extend the user list;
report submission and status update may rewrite the store; login and the
report listing read without writing. -/
def step (hash : String → String) (s : SysState) : Op → SysState
  | .signupReq req => { s with users := (signup hash s.users req).1 }
  | .loginReq _ _ => s
  | .submitReportB inp => { s with store := (appendReport s.store inp).1 }
  | .submitReportA inp => { s with store := (appendReportA s.store inp).1 }
  | .readReports => s
  | .adminSetStatus reportId status =>
    { s with store := (updateStatusOp s.store reportId status).1 }

/-- Run a sequence of requests from a starting state. -/
def run (hash : String → String) (s : SysState) : List Op → SysState
  | [] => s
  | op :: rest => run hash (step hash s op) rest

/-- Two user records are indistinguishable to a login request for `mobile`
when they agree on mobile_number and name, and on mpin whenever the record
is the one the request addresses; password_hash, email and wallet_amount
may differ arbitrarily, and so may the mpin of any other user. -/
def LoginView (mobile : String) (u v : User) : Prop :=
  u.mobile_number = v.mobile_number ∧ u.name = v.name ∧
    (u.mobile_number = mobile → u.mpin = v.mpin)

end ResQ

namespace ResQ

theorem asString_data (s : String) : List.asString s.data = s := rfl

theorem commaFree_chars {s : String} (h : commaFree s = true) :
    ∀ c ∈ s.data, c ≠ ',' := by
  intro c hc
  simpa using List.all_eq_true.mp h c hc

theorem cleanField_commaFree {s : String} (h : cleanField s = true) :
    commaFree s = true := by
  unfold cleanField at h
  unfold commaFree
  rw [List.all_eq_true] at h ⊢
  intro c hc
  exact (Bool.and_eq_true _ _ |>.mp (h c hc)).1

theorem splitCommaChars_of_commaFree (l : List Char) (h : ∀ c ∈ l, c ≠ ',') :
    splitCommaChars l = [l] := by
  induction l with
  | nil => rfl
  | cons c cs ih =>
    have hc : c ≠ ',' := h c (by simp)
    have ih' := ih (fun d hd => h d (by simp [hd]))
    simp only [splitCommaChars, if_neg hc, ih']

theorem splitCommaChars_append (l rest : List Char) (h : ∀ c ∈ l, c ≠ ',') :
    splitCommaChars (l ++ ',' :: rest) = l :: splitCommaChars rest := by
  induction l with
  | nil => simp [splitCommaChars]
  | cons c cs ih =>
    have hc : c ≠ ',' := h c (by simp)
    have ih' := ih (fun d hd => h d (by simp [hd]))
    simp only [List.cons_append, splitCommaChars, if_neg hc, List.append_eq, ih']

theorem splitComma_of_commaFree {s : String} (h : commaFree s = true) :
    splitComma s = [s] := by
  unfold splitComma
  rw [splitCommaChars_of_commaFree s.data (commaFree_chars h)]
  simp [asString_data]

theorem joinComma_data_cons (x : String) (xs : List String) (hne : xs ≠ []) :
    (joinComma (x :: xs)).data = x.data ++ ',' :: (joinComma xs).data := by
  cases xs with
  | nil => exact absurd rfl hne
  | cons y ys =>
    show (x ++ "," ++ joinComma (y :: ys)).data = _
    rw [String.data_append, String.data_append]
    simp

theorem splitComma_joinComma (xs : List String) (hne : xs ≠ [])
    (h : ∀ x ∈ xs, commaFree x = true) : splitComma (joinComma xs) = xs := by
  induction xs with
  | nil => exact absurd rfl hne
  | cons x xs ih =>
    cases xs with
    | nil =>
      have hx : joinComma [x] = x := rfl
      rw [hx, splitComma_of_commaFree (h x (by simp))]
    | cons y ys =>
      have htail := ih (by simp) (fun z hz => h z (List.mem_cons_of_mem _ hz))
      unfold splitComma at htail ⊢
      rw [joinComma_data_cons x (y :: ys) (by simp),
        splitCommaChars_append _ _ (commaFree_chars (h x (by simp))),
        List.map_cons, asString_data, htail]

theorem splitComma_joinComma_head (x : String) (xs : List String) (hne : xs ≠ [])
    (h : commaFree x = true) :
    (splitComma (joinComma (x :: xs))).headD "" = x := by
  unfold splitComma
  rw [joinComma_data_cons x xs hne, splitCommaChars_append _ _ (commaFree_chars h)]
  simp [asString_data]

theorem digitChar_ne_comma (m : Nat) : Nat.digitChar m ≠ ',' := by
  match m with
  | 0 | 1 | 2 | 3 | 4 | 5 | 6 | 7 | 8 | 9 | 10 | 11 | 12 | 13 | 14 | 15 => decide
  | n + 16 =>
    unfold Nat.digitChar
    simp

theorem toDigitsCore_ne_comma (b : Nat) :
    ∀ (f n : Nat) (l : List Char), (∀ c ∈ l, c ≠ ',') →
      ∀ c ∈ Nat.toDigitsCore b f n l, c ≠ ',' := by
  intro f
  induction f with
  | zero =>
    intro n l hl c hc
    simp only [Nat.toDigitsCore] at hc
    exact hl c hc
  | succ f ih =>
    intro n l hl c hc
    simp only [Nat.toDigitsCore] at hc
    split at hc
    · rcases List.mem_cons.mp hc with rfl | hc
      · exact digitChar_ne_comma _
      · exact hl c hc
    · refine ih (n / b) (Nat.digitChar (n % b) :: l) ?_ c hc
      intro d hd
      rcases List.mem_cons.mp hd with rfl | hd
      · exact digitChar_ne_comma _
      · exact hl d hd

theorem commaFree_repr (n : Nat) : commaFree (Nat.repr n) = true := by
  unfold commaFree
  rw [List.all_eq_true]
  intro c hc
  have hdata : (Nat.repr n).data = Nat.toDigitsCore 10 (n + 1) n [] := rfl
  rw [hdata] at hc
  simpa using toDigitsCore_ne_comma 10 (n + 1) n [] (by simp) c hc

/-- C1: the urgency classifier realises exactly the 12-entry table of spec
section 4.2, and returns the sentinel `"N/A"` on every pair in which either
category string is unrecognised. -/
theorem getUrgencyLevel_spec :
    (getUrgencyLevel "affected_injured_or_dead_people" "severe" = "5 (Critical)" ∧
     getUrgencyLevel "affected_injured_or_dead_people" "mild" = "4 (High)" ∧
     getUrgencyLevel "affected_injured_or_dead_people" "little_or_none" = "3 (Moderate)" ∧
     getUrgencyLevel "infrastructure_and_utility_damage" "severe" = "4 (High)" ∧
     getUrgencyLevel "infrastructure_and_utility_damage" "mild" = "3 (Moderate)" ∧
     getUrgencyLevel "infrastructure_and_utility_damage" "little_or_none" = "2 (Low)" ∧
     getUrgencyLevel "rescue_volunteering_or_donation_effort" "severe" = "3 (Moderate)" ∧
     getUrgencyLevel "rescue_volunteering_or_donation_effort" "mild" = "2 (Low)" ∧
     getUrgencyLevel "rescue_volunteering_or_donation_effort" "little_or_none" = "1 (Minimal)" ∧
     getUrgencyLevel "not_humanitarian" "severe" = "2 (Low)" ∧
     getUrgencyLevel "not_humanitarian" "mild" = "1 (Minimal)" ∧
     getUrgencyLevel "not_humanitarian" "little_or_none" = "1 (Minimal)") ∧
    (∀ h s : String, h ∉ humanitarianCategories ∨ s ∉ severityCategories →
      getUrgencyLevel h s = "N/A") := by
  constructor
  · refine ⟨?_, ?_, ?_, ?_, ?_, ?_, ?_, ?_, ?_, ?_, ?_, ?_⟩ <;> decide
  · intro h s hout
    rcases hout with hh | hs
    · simp only [humanitarianCategories, List.mem_cons, List.not_mem_nil, or_false,
        not_or] at hh
      obtain ⟨h1, h2, h3, h4⟩ := hh
      simp [getUrgencyLevel, h1, h2, h3, h4]
    · simp only [severityCategories, List.mem_cons, List.not_mem_nil, or_false,
        not_or] at hs
      obtain ⟨s1, s2, s3⟩ := hs
      simp [getUrgencyLevel, s1, s2, s3]

/-- Witness for C1: a concrete unrecognised pair yields the sentinel. -/
theorem getUrgencyLevel_spec_witness :
    (("weather_related" : String) ∉ humanitarianCategories ∨
      ("severe" : String) ∉ severityCategories) ∧
    getUrgencyLevel "weather_related" "severe" = "N/A" :=
  ⟨Or.inl (by decide), getUrgencyLevel_spec.2 "weather_related" "severe" (Or.inl (by decide))⟩

theorem appendMany_eq (lines : List String) (inps : List ReportInput) :
    appendMany lines inps =
      (lines ++ List.zipWith mkRowB (List.range' lines.length inps.length) inps,
       List.range' lines.length inps.length) := by
  induction inps generalizing lines with
  | nil => simp [appendMany]
  | cons inp rest ih =>
    simp only [appendMany, appendReport]
    rw [ih]
    simp only [List.length_append, List.length_cons, List.length_nil, Nat.zero_add,
      List.range'_succ, List.zipWith_cons_cons]
    simp [List.append_assoc]

theorem appendManyA_eq (lines : List String) (inps : List ReportInputA) :
    appendManyA lines inps =
      (lines ++ List.zipWith mkRowA (List.range' lines.length inps.length) inps,
       List.range' lines.length inps.length) := by
  induction inps generalizing lines with
  | nil => simp [appendManyA]
  | cons inp rest ih =>
    simp only [appendManyA, appendReportA]
    rw [ih]
    simp only [List.length_append, List.length_cons, List.length_nil, Nat.zero_add,
      List.range'_succ, List.zipWith_cons_cons]
    simp [List.append_assoc]

/-- C4: appending N reports sequentially to a store with a header line and k
data rows assigns the consecutive ids k+1, ..., k+N (so 1..N on a fresh
store), appends exactly one row per report, and each appended row carries
its assigned id as its first comma-separated field.  This holds in both
variants. -/
theorem sequential_append_ids :
    (∀ (headerLine : String) (rows : List String) (inps : List ReportInput),
      (appendMany (headerLine :: rows) inps).2 =
        List.range' (rows.length + 1) inps.length ∧
      (appendMany (headerLine :: rows) inps).1 =
        (headerLine :: rows) ++
          List.zipWith mkRowB (List.range' (rows.length + 1) inps.length) inps) ∧
    (∀ (headerLine : String) (rows : List String) (inps : List ReportInputA),
      (appendManyA (headerLine :: rows) inps).2 =
        List.range' (rows.length + 1) inps.length ∧
      (appendManyA (headerLine :: rows) inps).1 =
        (headerLine :: rows) ++
          List.zipWith mkRowA (List.range' (rows.length + 1) inps.length) inps) ∧
    (∀ (id : Nat) (inp : ReportInput),
      (splitComma (mkRowB id inp)).headD "" = Nat.repr id) ∧
    (∀ (id : Nat) (inp : ReportInputA),
      (splitComma (mkRowA id inp)).headD "" = Nat.repr id) := by
  refine ⟨?_, ?_, ?_, ?_⟩
  · intro headerLine rows inps
    rw [appendMany_eq]
    simp [List.length_cons]
  · intro headerLine rows inps
    rw [appendManyA_eq]
    simp [List.length_cons]
  · intro id inp
    exact splitComma_joinComma_head _ _ (by simp) (commaFree_repr id)
  · intro id inp
    exact splitComma_joinComma_head _ _ (by simp) (commaFree_repr id)

/-- C6: a status update whose id matches no data row's first field answers
404 and leaves the store untouched. -/
theorem updateStatus_notFound (headerLine : String) (rows : List String)
    (reportId status : String)
    (h : ∀ l ∈ rows, (splitComma l).headD "" ≠ reportId) :
    updateStatusOp (headerLine :: rows) reportId status =
      (headerLine :: rows, .notFound) := by
  have hfound : (rows.any fun l => (splitComma l).headD "" = reportId) = false := by
    rw [List.any_eq_false]
    intro l hl
    simpa using h l hl
  simp only [updateStatusOp, hfound, Bool.false_eq_true, if_false]

/-- Witness for C6: updating id 7 in a store that only holds report 1
answers 404 and keeps the store intact. -/
theorem updateStatus_notFound_witness :
    (∀ l ∈ ["1,img.png,12.9,77.6,MG Road,Flood,not_resolved"],
      (splitComma l).headD "" ≠ "7") ∧
    updateStatusOp [headerB, "1,img.png,12.9,77.6,MG Road,Flood,not_resolved"]
        "7" "resolved" =
      ([headerB, "1,img.png,12.9,77.6,MG Road,Flood,not_resolved"], .notFound) :=
  ⟨by decide,
   updateStatus_notFound headerB ["1,img.png,12.9,77.6,MG Road,Flood,not_resolved"]
     "7" "resolved" (by decide)⟩

/-- C3: writing a report whose field values contain no delimiter and no
newline and then reading all reports yields, as the last record, exactly
the written values, with the `id`, `latitude` and `longitude` fields
coerced to numeric type and every other field kept as a string. -/
theorem report_roundtrip (rows : List String) (inp : ReportInput)
    (hf : cleanField inp.filename = true)
    (hla : cleanField inp.latitude = true)
    (hlo : cleanField inp.longitude = true)
    (hloc : cleanField inp.locationText = true)
    (hd : cleanField inp.descriptionText = true) :
    (readAll (appendReport (headerB :: rows) inp).1).getLast? =
      some [("id", .numOf (Nat.repr (rows.length + 1))),
            ("image_filename", .str inp.filename),
            ("latitude", .numOf inp.latitude),
            ("longitude", .numOf inp.longitude),
            ("location", .str inp.locationText),
            ("description", .str inp.descriptionText),
            ("status", JSValue.str "not_resolved")] := by
  have hsplit : splitComma (mkRowB (rows.length + 1) inp) =
      [Nat.repr (rows.length + 1), inp.filename, inp.latitude, inp.longitude,
       inp.locationText, inp.descriptionText, "not_resolved"] := by
    apply splitComma_joinComma _ (by simp)
    intro x hx
    simp only [List.mem_cons, List.not_mem_nil, or_false] at hx
    rcases hx with rfl | rfl | rfl | rfl | rfl | rfl | rfl
    · exact commaFree_repr _
    · exact cleanField_commaFree hf
    · exact cleanField_commaFree hla
    · exact cleanField_commaFree hlo
    · exact cleanField_commaFree hloc
    · exact cleanField_commaFree hd
    · decide
  have happ : (appendReport (headerB :: rows) inp).1 =
      headerB :: (rows ++ [mkRowB (rows.length + 1) inp]) := by
    simp [appendReport]
  rw [happ]
  have hread : readAll (headerB :: (rows ++ [mkRowB (rows.length + 1) inp])) =
      (rows ++ [mkRowB (rows.length + 1) inp]).map
        (parseReportRow (splitComma headerB)) := rfl
  rw [hread, List.getLast?_map, List.getLast?_concat, Option.map_some']
  have hheaders : splitComma headerB =
      ["id", "image_filename", "latitude", "longitude", "location",
       "description", "status"] := by decide
  rw [parseReportRow, hheaders, hsplit]
  rfl

/-- Witness for C3: a concrete report round-trips through the store. -/
theorem report_roundtrip_witness :
    (cleanField "img.png" = true ∧ cleanField "12.9" = true ∧
     cleanField "77.6" = true ∧ cleanField "MG Road" = true ∧
     cleanField "Flood" = true) ∧
    (readAll (appendReport [headerB] ⟨"img.png", "12.9", "77.6", "MG Road", "Flood"⟩).1).getLast? =
      some [("id", .numOf "1"),
            ("image_filename", .str "img.png"),
            ("latitude", .numOf "12.9"),
            ("longitude", .numOf "77.6"),
            ("location", .str "MG Road"),
            ("description", .str "Flood"),
            ("status", JSValue.str "not_resolved")] :=
  ⟨⟨by decide, by decide, by decide, by decide, by decide⟩,
   report_roundtrip [] ⟨"img.png", "12.9", "77.6", "MG Road", "Flood"⟩
     (by decide) (by decide) (by decide) (by decide) (by decide)⟩

/-- Counterexample to C5: a store holding a data row with only 2 of the 7
header columns is read successfully — `GET /user/reports/` returns a parsed
row list (one record binding every header name), instead of failing the
read. -/
theorem readAll_mismatch_counterexample :
    (splitComma "1,a").length ≠ (splitComma headerB).length ∧
    readAll [headerB, "1,a"] =
      [[("id", .numOf "1"), ("image_filename", .str "a"),
        ("latitude", JSValue.nan), ("longitude", JSValue.nan),
        ("location", JSValue.undefined), ("description", JSValue.undefined),
        ("status", JSValue.undefined)]] := by
  constructor
  · decide
  · decide

/-- C5 amended: a column-count mismatch does not make the read fail.
`readAll` always yields one record per data row; a row shorter than the
header still produces a record binding every header name, and each field
beyond the row's length reads as NaN (for the numeric fields `id`,
`latitude`, `longitude`) or as undefined (for the rest). -/
theorem readAll_short_row (headerLine line : String) (rows : List String)
    (hmem : line ∈ rows) (i : Nat)
    (hi : i < (splitComma headerLine).length)
    (hshort : (splitComma line).length ≤ i) :
    (readAll (headerLine :: rows)).length = rows.length ∧
    parseReportRow (splitComma headerLine) line ∈ readAll (headerLine :: rows) ∧
    (parseReportRow (splitComma headerLine) line).get? i =
      some ((splitComma headerLine).getD i "",
        fieldValue ((splitComma headerLine).getD i "") none) ∧
    (fieldValue ((splitComma headerLine).getD i "") none = JSValue.nan ∨
     fieldValue ((splitComma headerLine).getD i "") none = JSValue.undefined) := by
  refine ⟨by simp [readAll], List.mem_map_of_mem _ hmem, ?_, ?_⟩
  · obtain ⟨v, hv⟩ : ∃ v, (splitComma headerLine).get? i = some v :=
      ⟨_, List.get?_eq_get hi⟩
    have hgetD : (splitComma headerLine).getD i "" = v := by
      rw [List.getD_eq_get?, hv, Option.getD_some]
    have hnone : (splitComma line).get? i = none := List.get?_eq_none.mpr hshort
    unfold parseReportRow
    rw [List.get?_map, hgetD]
    have henum : ((splitComma headerLine).enum).get? i = some (i, v) := by
      rw [List.get?_eq_getElem?, List.getElem?_enum, ← List.get?_eq_getElem?, hv]
      rfl
    rw [henum, Option.map_some', hnone]
  · unfold fieldValue
    split
    · left; rfl
    · right; rfl

/-- Witness for the amended C5: the concrete short row of the
counterexample store produces NaN for the missing `latitude` column and the
read still succeeds. -/
theorem readAll_short_row_witness :
    (("1,a" : String) ∈ ["1,a"] ∧ 2 < (splitComma headerB).length ∧
      (splitComma "1,a").length ≤ 2) ∧
    ((readAll [headerB, "1,a"]).length = 1 ∧
     parseReportRow (splitComma headerB) "1,a" ∈ readAll [headerB, "1,a"] ∧
     (parseReportRow (splitComma headerB) "1,a").get? 2 =
       some ((splitComma headerB).getD 2 "",
         fieldValue ((splitComma headerB).getD 2 "") none) ∧
     (fieldValue ((splitComma headerB).getD 2 "") none = JSValue.nan ∨
      fieldValue ((splitComma headerB).getD 2 "") none = JSValue.undefined)) :=
  ⟨⟨by decide, by decide, by decide⟩,
   readAll_short_row headerB "1,a" ["1,a"] (by decide) 2 (by decide) (by decide)⟩

theorem splitCommaChars_ne_nil (l : List Char) : splitCommaChars l ≠ [] := by
  induction l with
  | nil => simp [splitCommaChars]
  | cons c cs ih =>
    simp only [splitCommaChars]
    split
    · simp
    · split
      · simp
      · simp

theorem splitCommaChars_parts (l : List Char) :
    ∀ p ∈ splitCommaChars l, ∀ c ∈ p, c ≠ ',' := by
  induction l with
  | nil =>
    intro p hp
    simp only [splitCommaChars, List.mem_cons, List.not_mem_nil, or_false] at hp
    subst hp
    simp
  | cons c cs ih =>
    intro p hp
    simp only [splitCommaChars] at hp
    by_cases hc : c = ','
    · rw [if_pos hc] at hp
      rcases List.mem_cons.mp hp with rfl | hp
      · simp
      · exact ih p hp
    · rw [if_neg hc] at hp
      cases hsp : splitCommaChars cs with
      | nil => exact absurd hsp (splitCommaChars_ne_nil cs)
      | cons q qs =>
        rw [hsp] at hp
        rcases List.mem_cons.mp hp with rfl | hp
        · intro d hd
          rcases List.mem_cons.mp hd with rfl | hd
          · exact hc
          · exact ih q (by rw [hsp]; exact List.mem_cons_self q qs) d hd
        · exact ih p (by rw [hsp]; exact List.mem_cons_of_mem q hp)

theorem splitComma_parts_commaFree (s : String) :
    ∀ x ∈ splitComma s, commaFree x = true := by
  intro x hx
  unfold splitComma at hx
  obtain ⟨p, hp, rfl⟩ := List.mem_map.mp hx
  unfold commaFree
  rw [List.all_eq_true]
  intro c hc
  have hc' : c ∈ p := by simpa [asString_data] using hc
  simpa using splitCommaChars_parts s.data p hp c hc'

theorem map_updateLine_id (reportId status : String) (ls : List String)
    (h : ∀ l ∈ ls, (splitComma l).headD "" ≠ reportId) :
    ls.map (updateLine reportId status) = ls := by
  induction ls with
  | nil => rfl
  | cons l rest ih =>
    have hl : (splitComma l).headD "" ≠ reportId := h l (List.mem_cons_self l rest)
    simp only [List.map_cons, updateLine, if_neg hl,
      ih (fun x hx => h x (List.mem_cons_of_mem l hx))]

/-- Counterexample to C2: a store holding two well-formed data rows that
share the first-column id "1" satisfies the claim's hypothesis (it contains
a well-formed row whose first column equals the id), yet the update
rewrites the status column of BOTH matching rows, so a row other than the
matching one is not byte-identical afterwards. -/
theorem updateStatus_frame_counterexample :
    ((splitComma "1,a,b,c,d,e,f").length = 7 ∧
     (splitComma "1,a,b,c,d,e,f").headD "" = "1") ∧
    (updateStatusOp [headerB, "1,a,b,c,d,e,f", "1,a,b,c,d,e,g"] "1" "resolved").1 =
      [headerB, "1,a,b,c,d,e,resolved", "1,a,b,c,d,e,resolved"] ∧
    (updateStatusOp [headerB, "1,a,b,c,d,e,f", "1,a,b,c,d,e,g"] "1" "resolved").1.getD 2 "" ≠
      [headerB, "1,a,b,c,d,e,f", "1,a,b,c,d,e,g"].getD 2 "" :=
  ⟨by decide, by decide, by decide⟩

/-- C2 amended: when exactly one data row's first column equals the id,
that row has the well-formed 7-column shape and the new status contains no
delimiter, the update succeeds, sets that row's status column (index 6) to
the new status, and leaves the row's other columns, every other row and the
header byte-identical. -/
theorem updateStatus_unique_frame (headerLine target reportId status : String)
    (pre post : List String)
    (hcols : (splitComma target).length = 7)
    (hmatch : (splitComma target).headD "" = reportId)
    (hpre : ∀ l ∈ pre, (splitComma l).headD "" ≠ reportId)
    (hpost : ∀ l ∈ post, (splitComma l).headD "" ≠ reportId)
    (hclean : commaFree status = true) :
    updateStatusOp (headerLine :: (pre ++ target :: post)) reportId status =
      (headerLine :: (pre ++ joinComma ((splitComma target).set 6 status) :: post),
       UpdateOutcome.updated) ∧
    splitComma (joinComma ((splitComma target).set 6 status)) =
      (splitComma target).set 6 status ∧
    ((splitComma target).set 6 status).get? 6 = some status ∧
    (∀ i, i ≠ 6 →
      ((splitComma target).set 6 status).get? i = (splitComma target).get? i) := by
  have h6 : 6 < (splitComma target).length := by rw [hcols]; decide
  refine ⟨?_, ?_, ?_, ?_⟩
  · have hfound : ((pre ++ target :: post).any
        fun l => (splitComma l).headD "" = reportId) = true := by
      rw [List.any_eq_true]
      exact ⟨target, by simp, by simpa using hmatch⟩
    have htarget : updateLine reportId status target =
        joinComma ((splitComma target).set 6 status) := by
      unfold updateLine jsArraySet
      rw [if_pos hmatch, if_pos h6]
    simp only [updateStatusOp, hfound, if_true, List.map_append, List.map_cons,
      map_updateLine_id reportId status pre hpre,
      map_updateLine_id reportId status post hpost, htarget]
  · apply splitComma_joinComma
    · intro hnil
      have : ((splitComma target).set 6 status).length = 0 := by rw [hnil]; rfl
      rw [List.length_set, hcols] at this
      exact absurd this (by decide)
    · intro x hx
      rcases List.mem_or_eq_of_mem_set hx with hx' | rfl
      · exact splitComma_parts_commaFree target x hx'
      · exact hclean
  · exact List.get?_set_eq_of_lt status h6
  · intro i hi
    exact List.get?_set_ne status _ (fun h => hi h.symm)

/-- Witness for the amended C2: a concrete two-row store with a unique
matching row is updated in place. -/
theorem updateStatus_unique_frame_witness :
    ((splitComma "1,a,b,c,d,e,f").length = 7 ∧
     (splitComma "1,a,b,c,d,e,f").headD "" = "1" ∧
     (∀ l ∈ ["2,a,b,c,d,e,f"], (splitComma l).headD "" ≠ "1") ∧
     commaFree "resolved" = true) ∧
    updateStatusOp [headerB, "1,a,b,c,d,e,f", "2,a,b,c,d,e,f"] "1" "resolved" =
      ([headerB,
        joinComma ((splitComma "1,a,b,c,d,e,f").set 6 "resolved"),
        "2,a,b,c,d,e,f"], UpdateOutcome.updated) ∧
    ((splitComma "1,a,b,c,d,e,f").set 6 "resolved").get? 6 = some "resolved" ∧
    ((splitComma "1,a,b,c,d,e,f").set 6 "resolved").get? 0 =
      (splitComma "1,a,b,c,d,e,f").get? 0 :=
  have h := updateStatus_unique_frame headerB "1,a,b,c,d,e,f" "1" "resolved"
    [] ["2,a,b,c,d,e,f"] (by decide) (by decide) (by decide) (by decide) (by decide)
  ⟨⟨by decide, by decide, by decide, by decide⟩, h.1, h.2.2.1, h.2.2.2 0 (by decide)⟩

/-- C7: signing up with an unused mobile number always succeeds, appends a
record whose wallet_amount is 0, and returns that stored record; signing up
with a number already in the directory always fails with Conflict and
stores nothing. -/
theorem signup_spec (hash : String → String) (users : List User) (req : SignupReq) :
    ((∀ u ∈ users, u.mobile_number ≠ req.mobile_number) →
      signup hash users req =
        (users ++ [{ mobile_number := req.mobile_number, name := req.name,
                     email := req.email, password_hash := hash req.password,
                     mpin := req.mpin, wallet_amount := 0 }],
         Except.ok ({ mobile_number := req.mobile_number, name := req.name,
                      email := req.email, password_hash := hash req.password,
                      mpin := req.mpin, wallet_amount := 0 } : User))) ∧
    ((∃ u ∈ users, u.mobile_number = req.mobile_number) →
      signup hash users req = (users, Except.error "Mobile number already exists.")) := by
  constructor
  · intro h
    have hany : (users.any fun u => u.mobile_number = req.mobile_number) = false := by
      rw [List.any_eq_false]
      intro u hu
      simpa using h u hu
    simp only [signup, hany, Bool.false_eq_true, if_false]
  · intro h
    have hany : (users.any fun u => u.mobile_number = req.mobile_number) = true := by
      rw [List.any_eq_true]
      obtain ⟨u, hu, he⟩ := h
      exact ⟨u, hu, by simpa using he⟩
    simp only [signup, hany, if_true]

/-- Witness for C7: a fresh number succeeds with wallet 0; re-using it on
the resulting directory fails with Conflict. -/
theorem signup_spec_witness :
    (∀ u ∈ ([] : List User), u.mobile_number ≠ "111") ∧
    signup (fun s => s) [] ⟨"111", "Asha", "a@x.io", "pw", "1234"⟩ =
      ([{ mobile_number := "111", name := "Asha", email := "a@x.io",
          password_hash := "pw", mpin := "1234", wallet_amount := 0 }],
       Except.ok ({ mobile_number := "111", name := "Asha", email := "a@x.io",
                    password_hash := "pw", mpin := "1234", wallet_amount := 0 } : User)) :=
  ⟨by simp,
   (signup_spec (fun s => s) [] ⟨"111", "Asha", "a@x.io", "pw", "1234"⟩).1 (by simp)⟩

/-- C8: login with an unknown mobile number answers 404; login with a known
number but wrong mpin answers 401; login with the right mpin succeeds and
returns as contacts the (mobile_number, name) pairs of every signed-up user
except the caller.  The directory is unique-by-phone-number (spec data
model), expressed by the Nodup hypothesis. -/
theorem login_spec (users : List User) (mobile mpin : String) :
    ((∀ u ∈ users, u.mobile_number ≠ mobile) →
      login users mobile mpin = LoginResult.notFound) ∧
    (∀ (pre post : List User) (u : User), users = pre ++ u :: post →
      (users.map User.mobile_number).Nodup →
      u.mobile_number = mobile →
      ((u.mpin ≠ mpin → login users mobile mpin = LoginResult.unauthorized) ∧
       (u.mpin = mpin → login users mobile mpin =
          LoginResult.success ⟨u.mobile_number, u.name⟩
            ((pre ++ post).map (fun v => ⟨v.mobile_number, v.name⟩))))) := by
  constructor
  · intro h
    have hfind : users.find? (fun u => u.mobile_number = mobile) = none := by
      rw [List.find?_eq_none]
      intro x hx
      simpa using h x hx
    simp only [login, hfind]
  · intro pre post u hdecomp hnodup hmob
    subst hdecomp
    rw [List.map_append, List.map_cons, List.nodup_append] at hnodup
    obtain ⟨hn1, hn2, hdisj⟩ := hnodup
    have hpre : ∀ v ∈ pre, v.mobile_number ≠ mobile := by
      intro v hv heq
      exact hdisj (List.mem_map_of_mem _ hv)
        (by rw [heq, ← hmob]; exact List.mem_cons_self _ _)
    have hpost : ∀ v ∈ post, v.mobile_number ≠ mobile := by
      intro v hv heq
      exact (List.nodup_cons.mp hn2).1
        (by rw [hmob, ← heq]; exact List.mem_map_of_mem _ hv)
    have hfind : (pre ++ u :: post).find? (fun v => v.mobile_number = mobile) =
        some u := by
      rw [List.find?_append]
      have h1 : pre.find? (fun v => v.mobile_number = mobile) = none := by
        rw [List.find?_eq_none]
        intro x hx
        simpa using hpre x hx
      rw [h1, List.find?_cons_of_pos _ (by simpa using hmob)]
      rfl
    have hfilter : (pre ++ u :: post).filter
        (fun v => ¬ v.mobile_number = mobile) = pre ++ post := by
      rw [List.filter_append, List.filter_cons_of_neg (by simp [hmob]),
        List.filter_eq_self.mpr (fun a ha => by simpa using hpre a ha),
        List.filter_eq_self.mpr (fun a ha => by simpa using hpost a ha)]
    constructor
    · intro hne
      simp only [login, hfind, if_pos hne]
    · intro hmp
      simp only [login, hfind, hfilter]
      rw [if_neg (not_not_intro hmp)]

/-- Witness for C8: in a three-user directory the middle user logs in with
the right mpin and receives exactly the other two users as contacts. -/
theorem login_spec_witness :
    (([⟨"111", "Asha", "a@x.io", "h1", "1111", 0⟩,
       ⟨"222", "Bea", "b@x.io", "h2", "2222", 0⟩,
       ⟨"333", "Chandra", "c@x.io", "h3", "3333", 0⟩] : List User) =
      [⟨"111", "Asha", "a@x.io", "h1", "1111", 0⟩] ++
        (⟨"222", "Bea", "b@x.io", "h2", "2222", 0⟩ : User) ::
          [⟨"333", "Chandra", "c@x.io", "h3", "3333", 0⟩] ∧
     (([⟨"111", "Asha", "a@x.io", "h1", "1111", 0⟩,
        ⟨"222", "Bea", "b@x.io", "h2", "2222", 0⟩,
        ⟨"333", "Chandra", "c@x.io", "h3", "3333", 0⟩] : List User).map
          User.mobile_number).Nodup ∧
     (⟨"222", "Bea", "b@x.io", "h2", "2222", 0⟩ : User).mobile_number = "222" ∧
     (⟨"222", "Bea", "b@x.io", "h2", "2222", 0⟩ : User).mpin = "2222") ∧
    login [⟨"111", "Asha", "a@x.io", "h1", "1111", 0⟩,
           ⟨"222", "Bea", "b@x.io", "h2", "2222", 0⟩,
           ⟨"333", "Chandra", "c@x.io", "h3", "3333", 0⟩] "222" "2222" =
      LoginResult.success ⟨"222", "Bea"⟩ [⟨"111", "Asha"⟩, ⟨"333", "Chandra"⟩] :=
  ⟨⟨rfl, by decide, rfl, rfl⟩,
   ((login_spec [⟨"111", "Asha", "a@x.io", "h1", "1111", 0⟩,
       ⟨"222", "Bea", "b@x.io", "h2", "2222", 0⟩,
       ⟨"333", "Chandra", "c@x.io", "h3", "3333", 0⟩] "222" "2222").2
     [⟨"111", "Asha", "a@x.io", "h1", "1111", 0⟩]
     [⟨"333", "Chandra", "c@x.io", "h3", "3333", 0⟩]
     ⟨"222", "Bea", "b@x.io", "h2", "2222", 0⟩
     rfl (by decide) rfl).2 rfl⟩

theorem step_wallet_zero (hash : String → String) (s : SysState) (op : Op)
    (h : s.users.all (fun u => u.wallet_amount == 0) = true) :
    ((step hash s op).users).all (fun u => u.wallet_amount == 0) = true := by
  cases op with
  | signupReq req =>
    simp only [step, signup]
    split
    · exact h
    · simp only [List.all_append, h, Bool.true_and]
      simp
  | loginReq mobile mpin => exact h
  | submitReportB inp => exact h
  | submitReportA inp => exact h
  | readReports => exact h
  | adminSetStatus reportId status => exact h

/-- C9: starting from the empty user directory, after any sequence of
exposed operations every user record still has wallet_amount 0 — signup
initialises it to zero and no operation ever mutates it. -/
theorem wallet_always_zero (hash : String → String) (store0 : List String)
    (ops : List Op) :
    ((run hash ⟨[], store0⟩ ops).users).all (fun u => u.wallet_amount == 0) = true := by
  suffices hgen : ∀ s : SysState, s.users.all (fun u => u.wallet_amount == 0) = true →
      ((run hash s ops).users).all (fun u => u.wallet_amount == 0) = true by
    exact hgen ⟨[], store0⟩ rfl
  induction ops with
  | nil => intro s h; exact h
  | cons op rest ih =>
    intro s h
    exact ih (step hash s op) (step_wallet_zero hash s op h)

theorem login_find?_rel (mobile : String) {users users' : List User}
    (h : List.Forall₂ (LoginView mobile) users users') :
    (users.find? (fun u => u.mobile_number = mobile) = none ∧
     users'.find? (fun v => v.mobile_number = mobile) = none) ∨
    (∃ u v, users.find? (fun u => u.mobile_number = mobile) = some u ∧
      users'.find? (fun v => v.mobile_number = mobile) = some v ∧
      LoginView mobile u v ∧ u.mobile_number = mobile) := by
  induction h with
  | nil => left; exact ⟨rfl, rfl⟩
  | cons huv htail ih =>
    rename_i a b as bs
    by_cases hc : a.mobile_number = mobile
    · right
      refine ⟨a, b, List.find?_cons_of_pos _ (by simpa using hc), ?_, huv, hc⟩
      exact List.find?_cons_of_pos _ (by simp [← huv.1, hc])
    · have hc' : ¬ b.mobile_number = mobile := by rw [← huv.1]; exact hc
      rw [List.find?_cons_of_neg _ (by simpa using hc),
        List.find?_cons_of_neg _ (by simpa using hc')]
      exact ih

theorem login_contacts_rel (mobile : String) {users users' : List User}
    (h : List.Forall₂ (LoginView mobile) users users') :
    (users.filter (fun u => ¬ u.mobile_number = mobile)).map
        (fun u => Contact.mk u.mobile_number u.name) =
      (users'.filter (fun v => ¬ v.mobile_number = mobile)).map
        (fun v => Contact.mk v.mobile_number v.name) := by
  induction h with
  | nil => rfl
  | cons huv htail ih =>
    rename_i a b as bs
    obtain ⟨hmn, hname, _⟩ := huv
    by_cases hc : a.mobile_number = mobile
    · rw [List.filter_cons_of_neg (by simpa using hc),
        List.filter_cons_of_neg (by simp [← hmn, hc])]
      exact ih
    · rw [List.filter_cons_of_pos (by simpa using hc),
        List.filter_cons_of_pos (by simp [← hmn, hc]),
        List.map_cons, List.map_cons, ih, hmn, hname]

/-- C10: the login response reveals nothing beyond mobile numbers, names,
and the addressed user's mpin: for any two directory states related
pointwise by `LoginView` — i.e. differing arbitrarily in every user's
password_hash, email and wallet_amount, and in the mpin of every user other
than the one whose mobile number is supplied — the login result (status and
payload) is identical. -/
theorem login_noninterference (users users' : List User) (mobile mpin : String)
    (h : List.Forall₂ (LoginView mobile) users users') :
    login users mobile mpin = login users' mobile mpin := by
  rcases login_find?_rel mobile h with ⟨h1, h2⟩ | ⟨u, v, h1, h2, huv, hm⟩
  · simp only [login, h1, h2]
  · obtain ⟨hmn, hname, hmpin⟩ := huv
    have hmpin' : u.mpin = v.mpin := hmpin hm
    simp only [login, h1, h2, hmpin', hmn, hname, login_contacts_rel mobile h]

/-- Witness for C10: two concrete two-user directories that differ in the
caller's password hash and email and in the other user's mpin produce the
same login response. -/
theorem login_noninterference_witness :
    List.Forall₂ (LoginView "111")
      [⟨"111", "Asha", "a@x.io", "hashOne", "1111", 0⟩,
       ⟨"222", "Bea", "b@x.io", "hashTwo", "2222", 0⟩]
      [⟨"111", "Asha", "other@y.io", "differentHash", "1111", 7⟩,
       ⟨"222", "Bea", "b@x.io", "hashTwo", "9999", 3⟩] ∧
    login [⟨"111", "Asha", "a@x.io", "hashOne", "1111", 0⟩,
           ⟨"222", "Bea", "b@x.io", "hashTwo", "2222", 0⟩] "111" "1111" =
      login [⟨"111", "Asha", "other@y.io", "differentHash", "1111", 7⟩,
             ⟨"222", "Bea", "b@x.io", "hashTwo", "9999", 3⟩] "111" "1111" :=
  have hrel : List.Forall₂ (LoginView "111")
      [⟨"111", "Asha", "a@x.io", "hashOne", "1111", 0⟩,
       ⟨"222", "Bea", "b@x.io", "hashTwo", "2222", 0⟩]
      [⟨"111", "Asha", "other@y.io", "differentHash", "1111", 7⟩,
       ⟨"222", "Bea", "b@x.io", "hashTwo", "9999", 3⟩] :=
    List.Forall₂.cons ⟨rfl, rfl, fun _ => rfl⟩
      (List.Forall₂.cons ⟨rfl, rfl, fun hx => absurd hx (by decide)⟩
        List.Forall₂.nil)
  ⟨hrel, login_noninterference _ _ _ "1111" hrel⟩

end ResQ
